import Mathlib

/-!
Shallow embedding of the Manifesto Core runtime, translated from the
normative pseudocode of the specification drafts:

* Section 5 (Expression): Value model, Evaluate (5.16), ExtractPaths (5.17)
* Section 2 (Snapshot, in 6-validation.md): CreateSnapshot, GetValueByPath,
  SetValueByPath (2.4), version semantics (2.3.4)
* Section 6 (Validation): ValidatePathWrite (6.5.1), ValidatePathBounds
  (6.5.2), ValidateWriteOperation (6.9.1), ValidateDomain (6.4)
* Section 7 (Execution): BuildDependencyGraph (7.3.1), TopologicalSort
  (7.3.2), HasCycle (7.4.5), Propagate (7.5.2), GetAffectedOrder (7.5.3),
  CreatePropagationContext (7.5.4), RunEffect (7.6.1), set (7.7.2),
  CollectChangedPaths (7.8.8)

JSON numbers are modelled as rationals together with the IEEE-754 special
values (signed infinity and NaN), which captures the double-precision
behaviour of the operations exercised here exactly (no rounding occurs in
any of the verified computations).  The absent value (undefined) is a
distinguished member of the value type, as in the host language.
-/

namespace Manifesto

/-! Kernel-computable rational arithmetic.  The library operations on Rat
normalize through Nat.gcd, which is compiled by well-founded recursion and
does not reduce definitionally; the fuelled variants below compute by
structural recursion and are proved equal to the library operations, so
closed theorems about concrete runs can be settled by decide. -/

/-- Euclidean algorithm with explicit structural fuel. -/
def gcdF : Nat → Nat → Nat → Nat
  | 0, _, y => y
  | f + 1, x, y => if x = 0 then y else gcdF f (y % x) x

theorem gcdF_eq_gcd (f x y : Nat) (h : x < f) : gcdF f x y = Nat.gcd x y := by
  induction f generalizing x y with
  | zero => omega
  | succ f ih =>
    by_cases hx : x = 0
    · simp [gcdF, hx]
    · have hxpos : 0 < x := Nat.pos_of_ne_zero hx
      have hmod : y % x < f := lt_of_lt_of_le (Nat.mod_lt y hxpos) (by omega)
      rw [gcdF, if_neg hx, ih (y % x) x hmod]
      exact (Nat.gcd_rec x y).symm

/-- Greatest common divisor by structural recursion. -/
def ngcd (x y : Nat) : Nat := gcdF (x + 1) x y

theorem ngcd_eq_gcd (x y : Nat) : ngcd x y = Nat.gcd x y :=
  gcdF_eq_gcd (x + 1) x y (Nat.lt_succ_self x)

/-- Integer as a rational, by direct construction. -/
def intToRat (i : Int) : Rat := ⟨i, 1, Nat.one_ne_zero, Nat.coprime_one_right _⟩

theorem intToRat_eq (i : Int) : intToRat i = (i : Rat) := by
  cases i <;> rfl

theorem qmkNumAbs (n : Int) (g : Nat) :
    (n.sign * ((n.natAbs / g : Nat) : Int)).natAbs = n.natAbs / g := by
  by_cases hn0 : n = 0
  · subst hn0; simp
  · rw [Int.natAbs_mul, Int.natAbs_sign_of_nonzero hn0, one_mul, Int.natAbs_ofNat]

theorem qmkDenNz (n : Int) (d : Nat) (hd : d ≠ 0) : d / ngcd n.natAbs d ≠ 0 := by
  rw [ngcd_eq_gcd]
  have hgnz : Nat.gcd n.natAbs d ≠ 0 :=
    fun h => hd (Nat.eq_zero_of_gcd_eq_zero_right h)
  exact (Nat.div_ne_zero_iff hgnz).mpr
    (Nat.le_of_dvd (Nat.pos_of_ne_zero hd) (Nat.gcd_dvd_right _ _))

theorem qmkReduced (n : Int) (d : Nat) (hd : d ≠ 0) :
    (n.sign * ((n.natAbs / ngcd n.natAbs d : Nat) : Int)).natAbs.Coprime
      (d / ngcd n.natAbs d) := by
  rw [qmkNumAbs, ngcd_eq_gcd]
  exact Nat.coprime_div_gcd_div_gcd
    (Nat.gcd_pos_of_pos_right _ (Nat.pos_of_ne_zero hd))

/-- Normalized fraction constructor computing by structural recursion;
qmk n d is the rational n / d, and 0 when d = 0. -/
def qmk (n : Int) (d : Nat) : Rat :=
  if hd : d = 0 then 0 else
    ⟨n.sign * ((n.natAbs / ngcd n.natAbs d : Nat) : Int), d / ngcd n.natAbs d,
      qmkDenNz n d hd, qmkReduced n d hd⟩

theorem qmk_eq_divInt (n : Int) (d : Nat) : qmk n d = Rat.divInt n (d : Int) := by
  by_cases hd : d = 0
  · subst hd; simp [qmk]
  · rw [qmk, dif_neg hd, Rat.mk'_eq_divInt]
    simp only [ngcd_eq_gcd]
    have hgnz : Nat.gcd n.natAbs d ≠ 0 :=
      fun h => hd (Nat.eq_zero_of_gcd_eq_zero_right h)
    have hg0 : ((Nat.gcd n.natAbs d : Int)) ≠ 0 := Int.natCast_ne_zero.mpr hgnz
    have h1 : ((Nat.gcd n.natAbs d : Int))
        * (n.sign * ((n.natAbs / Nat.gcd n.natAbs d : Nat) : Int)) = n := by
      have hmul : (Nat.gcd n.natAbs d) * (n.natAbs / Nat.gcd n.natAbs d) = n.natAbs :=
        Nat.mul_div_cancel' (Nat.gcd_dvd_left _ _)
      calc ((Nat.gcd n.natAbs d : Int))
            * (n.sign * ((n.natAbs / Nat.gcd n.natAbs d : Nat) : Int))
          = n.sign * (((Nat.gcd n.natAbs d) * (n.natAbs / Nat.gcd n.natAbs d) : Nat) : Int) := by
            push_cast; ring
        _ = n.sign * (n.natAbs : Int) := by rw [hmul]
        _ = n := Int.sign_mul_natAbs n
    have h2 : ((Nat.gcd n.natAbs d : Int)) * ((d / Nat.gcd n.natAbs d : Nat) : Int)
        = (d : Int) := by
      exact_mod_cast Nat.mul_div_cancel' (Nat.gcd_dvd_right n.natAbs d)
    calc Rat.divInt (n.sign * ((n.natAbs / Nat.gcd n.natAbs d : Nat) : Int))
          ((d / Nat.gcd n.natAbs d : Nat) : Int)
        = Rat.divInt ((Nat.gcd n.natAbs d : Int)
            * (n.sign * ((n.natAbs / Nat.gcd n.natAbs d : Nat) : Int)))
          ((Nat.gcd n.natAbs d : Int) * ((d / Nat.gcd n.natAbs d : Nat) : Int)) :=
          (Rat.divInt_mul_left hg0).symm
      _ = Rat.divInt n (d : Int) := by rw [h1, h2]

/-- Rational addition computing by structural recursion. -/
def qAdd (a b : Rat) : Rat := qmk (a.num * b.den + b.num * a.den) (a.den * b.den)

/-- Rational negation computing by structural recursion. -/
def qNeg (a : Rat) : Rat := ⟨-a.num, a.den, a.den_nz, by simpa using a.reduced⟩

/-- Rational multiplication computing by structural recursion. -/
def qMul (a b : Rat) : Rat := qmk (a.num * b.num) (a.den * b.den)

/-- Rational division computing by structural recursion (0 when the
divisor is 0, as in the library convention). -/
def qDiv (a b : Rat) : Rat :=
  if 0 ≤ b.num then qmk (a.num * b.den) (a.den * b.num.natAbs)
  else qmk (-(a.num * b.den)) (a.den * b.num.natAbs)

theorem qAdd_eq (a b : Rat) : qAdd a b = a + b := by
  rw [qAdd, qmk_eq_divInt]
  have ha : ((a.den : Int)) ≠ 0 := Int.natCast_ne_zero.mpr a.den_nz
  have hb : ((b.den : Int)) ≠ 0 := Int.natCast_ne_zero.mpr b.den_nz
  conv_rhs => rw [← Rat.num_divInt_den a, ← Rat.num_divInt_den b]
  rw [Rat.divInt_add_divInt _ _ ha hb]
  push_cast
  ring_nf

theorem qNeg_eq (a : Rat) : qNeg a = -a := by
  rw [qNeg, Rat.mk'_eq_divInt, Rat.neg_def]

theorem qMul_eq (a b : Rat) : qMul a b = a * b := by
  rw [qMul, qmk_eq_divInt]
  conv_rhs => rw [← Rat.num_divInt_den a, ← Rat.num_divInt_den b]
  rw [Rat.divInt_mul_divInt']
  push_cast
  ring_nf

theorem qDiv_eq (a b : Rat) : qDiv a b = a / b := by
  rw [Rat.div_def']
  rcases le_or_lt 0 b.num with hn | hn
  · rw [qDiv, if_pos hn, qmk_eq_divInt]
    have : ((b.num.natAbs : Int)) = b.num := Int.natAbs_of_nonneg hn
    push_cast [this]
    rfl
  · rw [qDiv, if_neg (not_le.mpr hn), qmk_eq_divInt]
    have habs : ((b.num.natAbs : Int)) = -b.num :=
      Int.ofNat_natAbs_of_nonpos (le_of_lt hn)
    push_cast [habs]
    rw [show (a.den : Int) * -b.num = -((a.den : Int) * b.num) by ring, Rat.divInt_neg,
      Int.neg_neg]

/-- Leading-characters test by structural recursion over character lists. -/
def charsLeadIn : List Char → List Char → Bool
  | [], _ => true
  | _ :: _, [] => false
  | c :: cs, d :: ds => c == d && charsLeadIn cs ds

/-- String test used for built-in path detection and namespace routing:
true when the second string begins the first. -/
def strStartsWith (s p : String) : Bool := charsLeadIn p.data s.data

/-- JSON-shaped runtime value (Section 2/5).  The constructor inf carries
the sign of an IEEE infinity (true is positive); nan is the IEEE NaN;
absent is the absent value returned for unresolvable paths (2.4.2). -/
inductive Value where
  | absent : Value
  | null : Value
  | bool : Bool → Value
  | num : Rat → Value
  | inf : Bool → Value
  | nan : Value
  | str : String → Value
  | arr : List Value → Value
  | obj : List (String × Value) → Value

mutual

/-- DeepEqual (5.5.1): the == operator performs deep (structural)
equality comparison; the same comparison is used by Propagate for
change detection (7.5.2 step 6.c.ii.1.c). -/
def deepEqual : Value → Value → Bool
  | .absent, .absent => true
  | .null, .null => true
  | .bool a, .bool b => a == b
  | .num a, .num b => a == b
  | .inf a, .inf b => a == b
  | .nan, .nan => true
  | .str a, .str b => a == b
  | .arr xs, .arr ys => deepEqualList xs ys
  | .obj xs, .obj ys => deepEqualFields xs ys
  | _, _ => false

def deepEqualList : List Value → List Value → Bool
  | [], [] => true
  | x :: xs, y :: ys => deepEqual x y && deepEqualList xs ys
  | _, _ => false

def deepEqualFields : List (String × Value) → List (String × Value) → Bool
  | [], [] => true
  | (k₁, v₁) :: xs, (k₂, v₂) :: ys => k₁ == k₂ && deepEqual v₁ v₂ && deepEqualFields xs ys
  | _, _ => false

end

mutual

/-- Deep equality agrees with structural equality of the value model. -/
theorem deepEqual_iff (a b : Value) : deepEqual a b = true ↔ a = b := by
  cases a <;> cases b <;> simp [deepEqual]
  case arr.arr xs ys => exact (deepEqualList_iff xs ys).trans (by simp)
  case obj.obj xs ys => exact (deepEqualFields_iff xs ys).trans (by simp)

theorem deepEqualList_iff (xs ys : List Value) : deepEqualList xs ys = true ↔ xs = ys := by
  cases xs <;> cases ys <;> simp [deepEqualList]
  case cons.cons x xt y yt =>
    rw [deepEqual_iff x y, deepEqualList_iff xt yt]

theorem deepEqualFields_iff (xs ys : List (String × Value)) :
    deepEqualFields xs ys = true ↔ xs = ys := by
  cases xs <;> cases ys <;> simp [deepEqualFields]
  case cons.cons x xt y yt =>
    cases x; cases y
    rw [deepEqual_iff, deepEqualFields_iff xt yt]
    simp [and_assoc]

end

/-- Equality of values is decided by running the deep-equality test,
which deepEqual_iff shows is sound and complete. -/
instance : DecidableEq Value := fun a b =>
  decidable_of_iff (deepEqual a b = true) (deepEqual_iff a b)

/-- ToNumber coercion applied to arithmetic operands (5.7: non-numeric
operands are coerced to numbers).  Numbers, infinities and NaN are kept;
booleans become 0/1, null becomes 0, undefined and compound values become
NaN.  Numeric parsing of strings is not modelled: strings coerce to NaN
here, and no verified computation applies arithmetic to a string. -/
def toNumberV : Value → Value
  | .num q => .num q
  | .inf s => .inf s
  | .bool b => .num (if b then 1 else 0)
  | .null => .num 0
  | _ => .nan

/-- IEEE-754 negation of a coerced numeric value. -/
def negV : Value → Value
  | .num q => .num (qNeg q)
  | .inf s => .inf (!s)
  | _ => .nan

/-- IEEE-754 addition on coerced numeric values (5.7). -/
def jsAdd : Value → Value → Value
  | .num a, .num b => .num (qAdd a b)
  | .inf s, .num _ => .inf s
  | .num _, .inf s => .inf s
  | .inf a, .inf b => if a = b then .inf a else .nan
  | _, _ => .nan

/-- IEEE-754 subtraction on coerced numeric values (5.7). -/
def jsSub (a b : Value) : Value := jsAdd a (negV b)

/-- IEEE-754 multiplication on coerced numeric values (5.7). -/
def jsMul : Value → Value → Value
  | .num a, .num b => .num (qMul a b)
  | .inf s, .num b => if b = 0 then .nan else .inf (s = decide (0 < b))
  | .num a, .inf s => if a = 0 then .nan else .inf (s = decide (0 < a))
  | .inf a, .inf b => .inf (a = b)
  | _, _ => .nan

/-- IEEE-754 division on coerced numeric values (5.7: operations follow
IEEE 754 double-precision arithmetic; division by zero returns Infinity
or -Infinity, and 0/0 is NaN).  Signed zero is not distinguished, so a
zero divisor behaves as +0. -/
def jsDiv : Value → Value → Value
  | .num a, .num b =>
      if b = 0 then
        if 0 < a then .inf true else if a < 0 then .inf false else .nan
      else .num (qDiv a b)
  | .inf s, .num b => if 0 ≤ b then .inf s else .inf (!s)
  | .num _, .inf _ => .num 0
  | _, _ => .nan

/-- Truncation of a rational toward zero, as an integer value. -/
def ratTrunc (q : Rat) : Rat := intToRat (Int.tdiv q.num q.den)

/-- IEEE-754 remainder on coerced numeric values (5.7): the result has the
sign of the dividend, using truncated division. -/
def jsMod : Value → Value → Value
  | .num a, .num b =>
      if b = 0 then .nan
      else .num (qAdd a (qNeg (qMul b (ratTrunc (qDiv a b)))))
  | .num a, .inf _ => .num a
  | _, _ => .nan

/-- Three-way comparison backing the ordering operators (5.5.2: comparison
uses host-language semantics; two strings compare lexicographically, other
operands are coerced to numbers, and any NaN makes the comparison false,
signalled here by none). -/
def jsCompare : Value → Value → Option Ordering
  | .str a, .str b => some (compare a b)
  | a, b =>
    match toNumberV a, toNumberV b with
    | .num x, .num y =>
        some (if x < y then .lt else if y < x then .gt else .eq)
    | .num _, .inf s => some (if s then .lt else .gt)
    | .inf s, .num _ => some (if s then .gt else .lt)
    | .inf a, .inf b => some (if a = b then .eq else if b then .lt else .gt)
    | _, _ => none

/-- Host-language truthiness, used by !, all, any and Conditional:
false, 0, NaN, the empty string, null and undefined are falsy. -/
def truthy : Value → Bool
  | .absent => false
  | .null => false
  | .bool b => b
  | .num q => decide (q ≠ 0)
  | .inf _ => true
  | .nan => false
  | .str s => decide (s ≠ "")
  | .arr _ => true
  | .obj _ => true

/-- Expression (5.2): a JSON-shaped tree.  A literal holds a primitive
value; every operator and function form is an array whose head is the
operator tag and whose tail is the argument list, exactly the wire
shape the pseudocode destructures as [op, ...args]. -/
inductive Expr where
  | lit : Value → Expr
  | app : String → List Expr → Expr

deriving instance DecidableEq for Except

/-- EvalResult (5.19.1): success carries the value, failure an error
message string. -/
abbrev EvalResult := Except String Value

/-- EvaluationContext (5.15.1): path resolution for get.  The iteration
fields (current, index, accumulator) belong to the array-function family,
which is outside the operator core modelled here. -/
structure EvaluationContext where
  get : String → Value

mutual

/-- Evaluate (5.16), wrapped as the evaluate function of 5.19.2: literals
evaluate to themselves, get reads through the context, and the comparison,
logical and arithmetic operators follow items b-o of the dispatch table.
The function families of 5.8-5.14 (case, string, array, number, object,
type, date) are outside the modelled operator core and fall through to
the unknown-operator error of step 6. -/
def evaluate : Expr → EvaluationContext → EvalResult
  | .lit v, _ => .ok v
  | .app op args, ctx =>
    if op = "get" then
      match args with
      | [.lit (.str p)] => .ok (ctx.get p)
      | _ => .ok .absent
    else if op = "==" then
      match args with
      | [a, b] => do
          let va ← evaluate a ctx
          let vb ← evaluate b ctx
          pure (.bool (deepEqual va vb))
      | _ => .error "Invalid expression"
    else if op = "!=" then
      match args with
      | [a, b] => do
          let va ← evaluate a ctx
          let vb ← evaluate b ctx
          pure (.bool (!deepEqual va vb))
      | _ => .error "Invalid expression"
    else if op = ">" then
      match args with
      | [a, b] => do
          let va ← evaluate a ctx
          let vb ← evaluate b ctx
          pure (.bool (jsCompare va vb == some .gt))
      | _ => .error "Invalid expression"
    else if op = ">=" then
      match args with
      | [a, b] => do
          let va ← evaluate a ctx
          let vb ← evaluate b ctx
          pure (.bool (jsCompare va vb == some .gt || jsCompare va vb == some .eq))
      | _ => .error "Invalid expression"
    else if op = "<" then
      match args with
      | [a, b] => do
          let va ← evaluate a ctx
          let vb ← evaluate b ctx
          pure (.bool (jsCompare va vb == some .lt))
      | _ => .error "Invalid expression"
    else if op = "<=" then
      match args with
      | [a, b] => do
          let va ← evaluate a ctx
          let vb ← evaluate b ctx
          pure (.bool (jsCompare va vb == some .lt || jsCompare va vb == some .eq))
      | _ => .error "Invalid expression"
    else if op = "!" then
      match args with
      | [a] => do
          let va ← evaluate a ctx
          pure (.bool (!truthy va))
      | _ => .error "Invalid expression"
    else if op = "all" then evalAll args ctx
    else if op = "any" then evalAny args ctx
    else if op = "+" then
      match args with
      | [a, b] => do
          let va ← evaluate a ctx
          let vb ← evaluate b ctx
          pure (jsAdd (toNumberV va) (toNumberV vb))
      | _ => .error "Invalid expression"
    else if op = "-" then
      match args with
      | [a, b] => do
          let va ← evaluate a ctx
          let vb ← evaluate b ctx
          pure (jsSub (toNumberV va) (toNumberV vb))
      | _ => .error "Invalid expression"
    else if op = "*" then
      match args with
      | [a, b] => do
          let va ← evaluate a ctx
          let vb ← evaluate b ctx
          pure (jsMul (toNumberV va) (toNumberV vb))
      | _ => .error "Invalid expression"
    else if op = "/" then
      match args with
      | [a, b] => do
          let va ← evaluate a ctx
          let vb ← evaluate b ctx
          pure (jsDiv (toNumberV va) (toNumberV vb))
      | _ => .error "Invalid expression"
    else if op = "%" then
      match args with
      | [a, b] => do
          let va ← evaluate a ctx
          let vb ← evaluate b ctx
          pure (jsMod (toNumberV va) (toNumberV vb))
      | _ => .error "Invalid expression"
    else .error ("Unknown operator: " ++ op)
termination_by structural e => e

/-- All (5.6.2): true when every expression is truthy. -/
def evalAll : List Expr → EvaluationContext → EvalResult
  | [], _ => .ok (.bool true)
  | e :: rest, ctx => do
      let v ← evaluate e ctx
      if truthy v then evalAll rest ctx else pure (.bool false)
termination_by structural es => es

/-- Any (5.6.3): true when some expression is truthy. -/
def evalAny : List Expr → EvaluationContext → EvalResult
  | [], _ => .ok (.bool false)
  | e :: rest, ctx => do
      let v ← evaluate e ctx
      if truthy v then pure (.bool true) else evalAny rest ctx
termination_by structural es => es

end

/-- Set union on path lists, preserving first-occurrence order. -/
def unionPaths (xs ys : List String) : List String :=
  xs ++ ys.filter (fun y => !xs.contains y)

mutual

/-- ExtractPaths (5.17): a get whose first argument is a literal string
not starting with the character $ yields exactly that path (step 4) and
its remaining arguments are not walked; every other node unions the
extraction of its arguments (steps 5-7); literals yield the empty set. -/
def extractPaths : Expr → List String
  | .lit _ => []
  | .app op args =>
    if op = "get" then
      match args with
      | .lit (.str p) :: _ =>
          if strStartsWith p "$" then extractPathsList args else [p]
      | _ => extractPathsList args
    else extractPathsList args
termination_by structural e => e

def extractPathsList : List Expr → List String
  | [] => []
  | e :: rest => unionPaths (extractPaths e) (extractPathsList rest)
termination_by structural es => es

end

mutual

/-- Subterm enumeration of an expression tree. -/
def subterms : Expr → List Expr
  | .lit v => [.lit v]
  | .app op args => .app op args :: subtermsList args
termination_by structural e => e

def subtermsList : List Expr → List Expr
  | [] => []
  | e :: rest => subterms e ++ subtermsList rest
termination_by structural es => es

end

/-- Static path argument of a get node: the literal string path argument
when it does not start with the character $, none otherwise. -/
def staticGetArg : Expr → Option String
  | .app op args =>
      if op = "get" then
        match args with
        | .lit (.str p) :: _ => if strStartsWith p "$" then none else some p
        | _ => none
      else none
  | .lit _ => none

/-- Specification-side reading of dependency extraction: the set of literal
string path arguments of the get subexpressions of an expression that do
not start with the character $.  Stated from the specification sentence,
to be compared with extractPaths. -/
def getSubexpressionPaths (e : Expr) : List String :=
  (subterms e).filterMap staticGetArg

/-- Association-list lookup, the model of map access throughout. -/
def alookup : List (String × α) → String → Option α
  | [], _ => none
  | (k, v) :: rest, key => if k = key then some v else alookup rest key

/-- Association-list update: replace the bound value, or append the new
binding, preserving insertion order. -/
def ainsert : List (String × α) → String → α → List (String × α)
  | [], key, v => [(key, v)]
  | (k, w) :: rest, key, v =>
      if k = key then (k, v) :: rest else (k, w) :: ainsert rest key v

/-- Set-insert on a path list, preserving insertion order. -/
def saddPath (s : List String) (p : String) : List String :=
  if s.contains p then s else s ++ [p]

/-- DomainSnapshot (Section 2): data and state are domain-defined and
writable, derived and validity are computed, version counts mutations
from 0 and timestamp is epoch milliseconds. -/
structure Snapshot where
  data : Value
  state : Value
  derived : Value
  validity : Value
  timestamp : Nat
  version : Nat
deriving DecidableEq

/-- CreateSnapshot (2.4.1): initial data and state, empty derived and
validity mappings, version 0; the creation wall-clock time is supplied by
the host. -/
def createSnapshot (initialData initialState : Value) (ts : Nat) : Snapshot :=
  ⟨initialData, initialState, .obj [], .obj [], ts, 0⟩

/-- Splits a path string at the namespace separator character. -/
def splitSegsAux : List Char → List Char → List String
  | [], acc => [String.mk acc.reverse]
  | c :: rest, acc =>
      if c = Char.ofNat 46 then String.mk acc.reverse :: splitSegsAux rest []
      else splitSegsAux rest (c :: acc)

/-- Path segmentation (Section 3 grammar): namespace token followed by
identifier segments.  Index and wildcard segments use bracket syntax and
wildcards are legal only in subscription patterns; the verified
computations use identifier segments throughout. -/
def splitSegs (s : String) : List String := splitSegsAux s.data []

/-- Child access for one identifier segment: a property of an object
value; anything else (including the absent value) has no children. -/
def lookupChild : Value → String → Option Value
  | .obj kvs, key => alookup kvs key
  | _, _ => none

/-- Segment traversal: missing nodes surface as none. -/
def traverseSegs : Value → List String → Option Value
  | v, [] => some v
  | v, s :: rest =>
      match lookupChild v s with
      | some child => traverseSegs child rest
      | none => none

/-- GetNamespaceRoot: the value a namespace token resolves against;
data, state and derived map to their snapshot fields, and any other
token is checked against derived (2.4.2 routing rule). -/
def namespaceRoot (S : Snapshot) (ns : String) : Value :=
  if ns = "data" then S.data
  else if ns = "state" then S.state
  else S.derived

/-- GetValueByPath (2.4.2): route by namespace prefix, traverse the
remaining segments, and return the absent value when the path cannot be
resolved. -/
def getValueByPath (S : Snapshot) (path : String) : Value :=
  match splitSegs path with
  | [] => .absent
  | ns :: segs =>
      match traverseSegs (namespaceRoot S ns) segs with
      | some v => v
      | none => .absent

/-- Functional update along identifier segments, creating intermediate
objects where the path descends through a missing or non-object node. -/
def setValueAt : Value → List String → Value → Value
  | _, [], nv => nv
  | v, s :: rest, nv =>
      let kvs := match v with
        | .obj kvs => kvs
        | _ => []
      let child := (alookup kvs s).getD .absent
      .obj (ainsert kvs s (setValueAt child rest nv))

/-- SetValueByPath (2.4.3): returns a new snapshot with the value set at
the path and version incremented by exactly one (2.3.4 invariant 2); the
timestamp is carried over, satisfying the non-decreasing requirement; the
input snapshot is a pure value and therefore unchanged. -/
def setValueByPath (S : Snapshot) (path : String) (v : Value) : Snapshot :=
  let S2 := match splitSegs path with
    | [] => S
    | ns :: segs =>
        if ns = "data" then { S with data := setValueAt S.data segs v }
        else if ns = "state" then { S with state := setValueAt S.state segs v }
        else { S with derived := setValueAt S.derived segs v }
  { S2 with version := S.version + 1 }

/-- ValidationIssue (6.2): machine-readable code, human message, path and
severity. -/
structure ValidationIssue where
  code : String
  message : String
  path : String
  severity : String
deriving DecidableEq

/-- ValidationResult (6.2). -/
structure ValidationResult where
  valid : Bool
  issues : List ValidationIssue
deriving DecidableEq

/-- ValidatePathWrite (6.5.1): derived paths are read-only, every other
namespace is writable at this phase. -/
def validatePathWrite (path : String) : Option ValidationIssue :=
  if strStartsWith path "derived." then
    some ⟨"READONLY_VIOLATION", "Attempt to write to derived path", path, "error"⟩
  else none

/-- Digit-string test for index segments. -/
def segIndex (s : String) : Option Nat :=
  if s.data ≠ [] ∧ s.data.all (fun c => c.isDigit) then
    some (s.data.foldl (fun acc c => acc * 10 + (c.toNat - 48)) 0)
  else none

/-- ValidatePathBounds (6.5.2) inner loop over the segments after the
namespace token. -/
def boundsWalk : Value → List String → String → Option ValidationIssue
  | _, [], _ => none
  | current, seg :: rest, path =>
      match current, segIndex seg with
      | .arr items, some i =>
          if i < items.length then
            boundsWalk (items.getD i .absent) rest path
          else some ⟨"INDEX_OUT_OF_BOUNDS", "Array index exceeds bounds", path, "error"⟩
      | _, _ =>
          match current with
          | .obj kvs => boundsWalk ((alookup kvs seg).getD .absent) rest path
          | _ => some ⟨"PATH_NOT_FOUND", "Path does not exist in snapshot", path, "error"⟩

/-- ValidatePathBounds (6.5.2): array indices must be in range, and a
segment applied to a non-object non-array node is PATH_NOT_FOUND. -/
def validatePathBounds (S : Snapshot) (path : String) : Option ValidationIssue :=
  match splitSegs path with
  | [] => none
  | ns :: segs => boundsWalk (namespaceRoot S ns) segs path

/-- CreateEvaluationContext (5.15.2). -/
def createEvaluationContext (S : Snapshot) : EvaluationContext :=
  ⟨fun p => getValueByPath S p⟩

/-- Invariant (6.8.1). -/
structure Invariant where
  name : String
  condition : Expr
  message : String

/-- ExtractPrimaryPath: the first path referenced by a condition. -/
def extractPrimaryPath (condition : Expr) : String :=
  (extractPaths condition).headD ""

/-- ValidateInvariants (6.8.3): every invariant whose condition does not
evaluate to true contributes an INVARIANT_VIOLATION error. -/
def validateInvariants (S : Snapshot) (invariants : List Invariant) : ValidationResult :=
  let issues := invariants.filterMap (fun inv =>
    if evaluate inv.condition (createEvaluationContext S) = .ok (.bool true) then none
    else some ⟨"INVARIANT_VIOLATION", inv.message, extractPrimaryPath inv.condition, "error"⟩)
  ⟨issues.length = 0, issues⟩

/-- Effect (Section 4): the ten-member tagged union, grouped as state
(SetValue, SetState), IO (ApiCall, Navigate), temporal (Delay), control
(Sequence, Parallel, Conditional, Catch) and event (EmitEvent).
Expression-bearing fields hold expressions; a plain value travels as a
literal expression, matching the wire shape. -/
inductive Effect where
  | setValue (path : String) (value : Expr)
  | setState (path : String) (value : Expr)
  | apiCall (endpoint : Expr) (body : List (String × Expr)) (query : List (String × Expr))
  | navigate (dest : Expr) (mode : Option String)
  | delay (ms : Nat)
  | sequence (effects : List Effect)
  | parallel (waitAll : Bool) (effects : List Effect)
  | conditional (condition : Expr) (thenEff : Effect) (elseEff : Option Effect)
  | catchE (tryEff : Effect) (catchEff : Effect) (finallyEff : Option Effect)
  | emitEvent (channel : String) (payload : Value)

/-- EffectError (7.12.1): code and message. -/
structure EffectError where
  code : String
  message : String
deriving DecidableEq

/-- Delegated handler call (7.6.2): the interpreter performs no IO itself;
each delegation is recorded as an event, so a run yields an ordered trace
of everything the handler was asked to do. -/
inductive HandlerEvent where
  | setValue (path : String) (value : Value)
  | setState (path : String) (value : Value)
  | apiCall (endpoint : Value) (body : List (String × Value)) (query : List (String × Value))
  | navigate (dest : Value) (mode : Option String)
  | delay (ms : Nat)
  | emitEvent (channel : String) (payload : Value)
deriving DecidableEq

/-- EffectRunnerConfig (4.13.1): the evaluation context plus the host
behaviour of the one delegated call that produces a value: apiCall either
returns a response or throws, which RunEffect wraps as API_CALL_FAILED. -/
structure RunConfig where
  context : EvaluationContext
  apiResponse : Value → List (String × Value) → List (String × Value) → Except EffectError Value

/-- RunResult: the effect outcome together with the handler trace. -/
abbrev RunResult := Except EffectError Value × List HandlerEvent

/-- Evaluation failure surfaced as an effect error. -/
def evalFailure (msg : String) : EffectError := ⟨"EVALUATION_ERROR", msg⟩

/-- EvaluateIfExpression (7.6.1.1): a literal field is passed through, an
operator array is evaluated.  (An array whose head is an unknown operator
is returned verbatim by the host implementation; here it surfaces as the
unknown-operator evaluation error, a case no effect below exercises.) -/
def evaluateIfExpression (e : Expr) (ctx : EvaluationContext) : EvalResult :=
  match e with
  | .lit v => .ok v
  | e => evaluate e ctx

/-- EvaluateRecord (7.6.1.1): evaluate every field of a record. -/
def evaluateRecord (fields : List (String × Expr)) (ctx : EvaluationContext) :
    Except String (List (String × Value)) :=
  match fields with
  | [] => .ok []
  | (k, e) :: rest => do
      let v ← evaluateIfExpression e ctx
      let tail ← evaluateRecord rest ctx
      pure ((k, v) :: tail)

/-- SetValue and SetState interpretation (7.6.1 items a and b): evaluate
the value expression, delegate to the handler, succeed. -/
def runSetLike (mk : String → Value → HandlerEvent) (path : String) (value : Expr)
    (cfg : RunConfig) : RunResult :=
  match evaluateIfExpression value cfg.context with
  | .error msg => (.error (evalFailure msg), [])
  | .ok v => (.ok .absent, [mk path v])

/-- ApiCall interpretation (7.6.1 item c): evaluate the
expression-bearing fields, delegate, and wrap a thrown host error as
API_CALL_FAILED. -/
def runApiCallEff (endpoint : Expr) (body query : List (String × Expr))
    (cfg : RunConfig) : RunResult :=
  match evaluateIfExpression endpoint cfg.context with
  | .error msg => (.error (evalFailure msg), [])
  | .ok ep =>
    match evaluateRecord body cfg.context with
    | .error msg => (.error (evalFailure msg), [])
    | .ok bodyV =>
      match evaluateRecord query cfg.context with
      | .error msg => (.error (evalFailure msg), [])
      | .ok queryV =>
        match cfg.apiResponse ep bodyV queryV with
        | .ok response => (.ok response, [.apiCall ep bodyV queryV])
        | .error err =>
            (.error ⟨"API_CALL_FAILED", err.message⟩, [.apiCall ep bodyV queryV])

/-- Navigate interpretation (7.6.1 item d). -/
def runNavigateEff (dest : Expr) (mode : Option String) (cfg : RunConfig) : RunResult :=
  match evaluateIfExpression dest cfg.context with
  | .error msg => (.error (evalFailure msg), [])
  | .ok destV => (.ok .absent, [.navigate destV mode])

/-- Parallel result combination (7.6.1 item g): with waitAll the first
failure or the array of all values; otherwise the first settled child,
which the synchronous model takes to be the first in array order. -/
def parallelCombine (waitAll : Bool) (results : List (Except EffectError Value))
    (trace : List HandlerEvent) : RunResult :=
  if waitAll then
    match results.find? (fun r => !r.isOk) with
    | some (.error e) => (.error e, trace)
    | _ => (.ok (.arr (results.filterMap (fun r => r.toOption))), trace)
  else
    match results with
    | [] => (.ok .absent, trace)
    | r :: _ => (r, trace)

/-- Conditional combination (7.6.1 item h): dispatch on the truthiness of
the evaluated condition; the branches are run on demand. -/
def conditionalCombine (condR : EvalResult) (thenR : Unit → RunResult)
    (elseR : Option (Unit → RunResult)) : RunResult :=
  match condR with
  | .error msg => (.error (evalFailure msg), [])
  | .ok c =>
      if truthy c then thenR ()
      else match elseR with
        | some r => r ()
        | none => (.ok .absent, [])

/-- Catch combination (7.6.1 item i): on a successful try return its
result, on failure run the catch child and return its result; the finally
child, when present, runs unconditionally after the branch that ran, its
own result discarded.  The catch and finally children are run on
demand. -/
def catchCombine (tryR : RunResult) (catchR : Unit → RunResult)
    (finR : Option (Unit → RunResult)) : RunResult :=
  match tryR with
  | (.ok v, t1) =>
      match finR with
      | some f => (.ok v, t1 ++ (f ()).2)
      | none => (.ok v, t1)
  | (.error err, t1) =>
      let (rc, t2) := catchR ()
      match finR with
      | some f => (rc, t1 ++ t2 ++ (f ()).2)
      | none => (rc, t1 ++ t2)

mutual

/-- RunEffect (7.6.1).  Failures are returned results, never unwound past
the interpreter (Section 7 error handling): evaluation failures fail the
effect with EVALUATION_ERROR before any delegation, a throwing apiCall
handler is wrapped as API_CALL_FAILED, Sequence is fail-fast and returns
the last result, Parallel with waitAll returns the first failure or all
values, Conditional dispatches on truthiness, Catch runs the catch child
when try fails and runs finally unconditionally (4.7.4 semantics), and
EmitEvent always succeeds.  Parallel is modelled synchronously: children
run in array order, and without waitAll the first child in order stands
for the first settled child. -/
def runEffect (e : Effect) (cfg : RunConfig) : RunResult :=
  match e with
  | .setValue path value => runSetLike HandlerEvent.setValue path value cfg
  | .setState path value => runSetLike HandlerEvent.setState path value cfg
  | .apiCall endpoint body query => runApiCallEff endpoint body query cfg
  | .navigate dest mode => runNavigateEff dest mode cfg
  | .delay ms => (.ok .absent, [.delay ms])
  | .sequence effects => runSequence effects cfg (.ok .absent) []
  | .parallel waitAll effects =>
      let (results, trace) := runAllChildren effects cfg []
      parallelCombine waitAll results trace
  | .conditional condition thenEff none =>
      conditionalCombine (evaluate condition cfg.context)
        (fun _ => runEffect thenEff cfg) none
  | .conditional condition thenEff (some elseEff) =>
      conditionalCombine (evaluate condition cfg.context)
        (fun _ => runEffect thenEff cfg) (some (fun _ => runEffect elseEff cfg))
  | .catchE tryEff catchEff none =>
      catchCombine (runEffect tryEff cfg) (fun _ => runEffect catchEff cfg) none
  | .catchE tryEff catchEff (some finEff) =>
      catchCombine (runEffect tryEff cfg) (fun _ => runEffect catchEff cfg)
        (some (fun _ => runEffect finEff cfg))
  | .emitEvent channel payload => (.ok .absent, [.emitEvent channel payload])
termination_by sizeOf e

/-- Sequence interpretation (7.6.1 item f): children run in array order,
the first failure stops the walk and is returned, otherwise the last
result stands. -/
def runSequence (effects : List Effect) (cfg : RunConfig)
    (lastResult : Except EffectError Value) (trace : List HandlerEvent) : RunResult :=
  match effects with
  | [] => (lastResult, trace)
  | e :: rest =>
      let (r, t) := runEffect e cfg
      match r with
      | .error err => (.error err, trace ++ t)
      | .ok v => runSequence rest cfg (.ok v) (trace ++ t)
termination_by sizeOf effects

/-- Parallel interpretation helper: every child is started, results are
collected in array order. -/
def runAllChildren (effects : List Effect) (cfg : RunConfig)
    (trace : List HandlerEvent) : List (Except EffectError Value) × List HandlerEvent :=
  match effects with
  | [] => ([], trace)
  | e :: rest =>
      let (r, t) := runEffect e cfg
      let (rs, trest) := runAllChildren rest cfg (trace ++ t)
      (r :: rs, trest)
termination_by sizeOf effects

end

/-- SourceDefinition: the declared schema is an external collaborator
(6.6, Zod integration), modelled as a black-box validation function. -/
structure SourceDef where
  schema : Value → ValidationResult

/-- DerivedDefinition: declared dependencies and the computing
expression. -/
structure DerivedDef where
  deps : List String
  expr : Expr

/-- AsyncDefinition (7.5.5, 7.5.7): declared dependencies, optional
trigger condition and debounce, the effect to run, and the three
companion state paths. -/
structure AsyncDef where
  deps : List String
  condition : Option Expr
  effect : Effect
  resultPath : String
  loadingPath : String
  errorPath : String
  debounce : Option Nat

/-- ConditionRef (Section 4.9 of the runtime design): path, expected
boolean as the string flag of the source format, and optional reason. -/
structure ConditionRef where
  path : String
  expect : Option String
  reason : Option String
deriving DecidableEq

/-- ActionDefinition: the fields domain validation reads. -/
structure ActionDef where
  deps : List String
  preconditions : List ConditionRef
  verb : String
  effect : Effect

/-- ManifestoDomain: identity plus the path declarations and actions. -/
structure Domain where
  id : String
  name : String
  sources : List (String × SourceDef)
  derived : List (String × DerivedDef)
  async : List (String × AsyncDef)
  actions : List (String × ActionDef)
  invariants : List Invariant

/-- GetSourceDefinition: the declared source entry for a path. -/
def getSourceDefinition (dom : Domain) (path : String) : Option SourceDef :=
  alookup dom.sources path

/-- ValidateWriteOperation (6.9.1): phase 1 path-write validation returns
immediately on failure; bounds, schema and post-state invariant issues
are collected, and the result is valid exactly when no error-severity
issue was produced. -/
def validateWriteOperation (S : Snapshot) (path : String) (value : Value)
    (dom : Domain) : ValidationResult :=
  match validatePathWrite path with
  | some issue => ⟨false, [issue]⟩
  | none =>
      let boundsIssues := match validatePathBounds S path with
        | some i => [i]
        | none => []
      let schemaIssues := match getSourceDefinition dom path with
        | some sd => (sd.schema value).issues
        | none => []
      let newSnapshot := setValueByPath S path value
      let invariantIssues := (validateInvariants newSnapshot dom.invariants).issues
      let issues := boundsIssues ++ schemaIssues ++ invariantIssues
      ⟨issues.all (fun i => i.severity ≠ "error"), issues⟩

/-- DagNode (7.2.1): source, derived or async; sources carry no data the
execution algorithms read, so the source definition payload is omitted. -/
inductive DagNode where
  | source : DagNode
  | derived (defn : DerivedDef) : DagNode
  | async (defn : AsyncDef) : DagNode

/-- DependencyGraph (7.2.2): node map, forward and reverse adjacency, and
the cached topological order. -/
structure DependencyGraph where
  nodes : List (String × DagNode)
  dependencies : List (String × List String)
  dependents : List (String × List String)
  topologicalOrder : List String

/-- Adds one element to the adjacency set of a key. -/
def addEdge (m : List (String × List String)) (k p : String) :
    List (String × List String) :=
  ainsert m k (saddPath ((alookup m k).getD []) p)

/-- Ensures a key is present in an adjacency map. -/
def ensureKey (m : List (String × List String)) (k : String) :
    List (String × List String) :=
  match alookup m k with
  | some _ => m
  | none => m ++ [(k, [])]

/-- Set-from-list with the union of further paths (7.3.1 steps 5.b-5.d):
declared deps unioned with extracted expression deps that are not
built-in. -/
def derivedDeps (defn : DerivedDef) : List String :=
  (extractPaths defn.expr).foldl
    (fun acc dep => if strStartsWith dep "$" then acc else saddPath acc dep)
    (defn.deps.foldl saddPath [])

/-- Async node dependencies (7.3.1 steps 6.b-6.c): declared deps unioned
with the condition expression dependencies when a condition exists. -/
def asyncDeps (defn : AsyncDef) : List String :=
  let base := defn.deps.foldl saddPath []
  match defn.condition with
  | some c => (extractPaths c).foldl saddPath base
  | none => base

/-- Kahn queue loop (7.3.2 step 6) with structural fuel: dequeue, append
to the result, and decrement the in-degree of every entry whose
dependency set contains the dequeued path, enqueueing at zero.  Degrees
are integers: after a node is processed its dependents can pass below
zero without re-enqueueing.  The fuel bounds total dequeues; every node
is enqueued at most once, so nodes.length + 1 suffices. -/
def kahnLoop (dependencies : List (String × List String)) :
    Nat → List String → List (String × Int) → List String → List String
  | 0, _, _, result => result
  | _ + 1, [], _, result => result
  | f + 1, current :: queue, inDegree, result =>
      let step := dependencies.foldl
        (fun (acc : List (String × Int) × List String) entry =>
          let (deg, q) := acc
          if entry.2.contains current then
            let d := ((alookup deg entry.1).getD 0) - 1
            (ainsert deg entry.1 d, if d = 0 then q ++ [entry.1] else q)
          else acc)
        (inDegree, queue)
      kahnLoop dependencies f step.2 step.1 (result ++ [current])

/-- TopologicalSort (7.3.2), Kahn's algorithm: in-degree counting over
dependencies restricted to known nodes, a queue seeded with the
zero-in-degree paths, and the dequeue loop; on a cyclic input the
returned order omits the nodes of every cycle. -/
def topologicalSort (nodes : List (String × DagNode))
    (dependencies : List (String × List String)) : List String :=
  let inDegree0 : List (String × Int) := nodes.map (fun n => (n.1, 0))
  let inDegree := dependencies.foldl
    (fun deg entry =>
      entry.2.foldl
        (fun deg dep =>
          if (alookup nodes dep).isSome then
            ainsert deg entry.1 (((alookup deg entry.1).getD 0) + 1)
          else deg)
        deg)
    inDegree0
  let queue := (nodes.map (fun n => n.1)).filter
    (fun p => (alookup inDegree p).getD 0 = 0)
  kahnLoop dependencies (nodes.length + 1) queue inDegree []

/-- BuildDependencyGraph (7.3.1): register source nodes with empty
dependency sets, derived nodes with declared-plus-extracted dependencies
and reverse edges, async nodes with declared-plus-condition dependencies,
reverse edges and the three companion state paths of 7.3.1.1, then cache
the Kahn order.  Construction itself never fails: cycle detection is a
separate operation (7.4.5) and a separate domain-validation check (6.4.5). -/
def buildDependencyGraph (dom : Domain) : DependencyGraph :=
  let st0 : List (String × DagNode) × List (String × List String) × List (String × List String) :=
    ([], [], [])
  let st1 := dom.sources.foldl
    (fun st entry =>
      let (nodes, dependencies, dependents) := st
      (nodes ++ [(entry.1, DagNode.source)],
       ainsert dependencies entry.1 [],
       ensureKey dependents entry.1))
    st0
  let st2 := dom.derived.foldl
    (fun st entry =>
      let (nodes, dependencies, dependents) := st
      let deps := derivedDeps entry.2
      (nodes ++ [(entry.1, DagNode.derived entry.2)],
       ainsert dependencies entry.1 deps,
       deps.foldl (fun m dep => addEdge m dep entry.1) dependents))
    st1
  let st3 := dom.async.foldl
    (fun st entry =>
      let (nodes, dependencies, dependents) := st
      let deps := asyncDeps entry.2
      let afterMain :=
        (nodes ++ [(entry.1, DagNode.async entry.2)],
         ainsert dependencies entry.1 deps,
         deps.foldl (fun m dep => addEdge m dep entry.1) dependents)
      [entry.2.resultPath, entry.2.loadingPath, entry.2.errorPath].foldl
        (fun st statePath =>
          let (nodes, dependencies, dependents) := st
          let (nodes, dependencies) :=
            if (alookup nodes statePath).isSome then (nodes, dependencies)
            else (nodes ++ [(statePath, DagNode.source)], ainsert dependencies statePath [])
          (nodes,
           addEdge dependencies entry.1 statePath,
           addEdge dependents statePath entry.1))
        afterMain)
    st2
  let (nodes, dependencies, dependents) := st3
  ⟨nodes, dependencies, dependents, topologicalSort nodes dependencies⟩

/-- GetDirectDependencies (7.4.1). -/
def getDirectDependencies (g : DependencyGraph) (path : String) : List String :=
  (alookup g.dependencies path).getD []

/-- GetDirectDependents (7.4.2). -/
def getDirectDependents (g : DependencyGraph) (path : String) : List String :=
  (alookup g.dependents path).getD []

/-- Shared worklist for the transitive closures of 7.4.3 and 7.4.4: a
depth-first walk with a visited set over the chosen adjacency map.  The
fuel bounds the total number of traversal steps. -/
def closureDFS (adj : List (String × List String)) :
    Nat → List String → List String → List String → List String × List String
  | 0, _, visited, result => (visited, result)
  | _ + 1, [], visited, result => (visited, result)
  | f + 1, current :: stack, visited, result =>
      if visited.contains current then closureDFS adj f stack visited result
      else
        let nexts := (alookup adj current).getD []
        let result := nexts.foldl saddPath result
        closureDFS adj f (nexts ++ stack) (saddPath visited current) result

/-- Fuel bound for graph traversals: nodes plus total edges plus one. -/
def traversalFuel (g : DependencyGraph) : Nat :=
  g.nodes.length + g.dependencies.foldl (fun a e => a + e.2.length) 0
    + g.dependents.foldl (fun a e => a + e.2.length) 0 + 1

/-- GetAllDependents (7.4.4): transitive dependents by DFS with a
visited set. -/
def getAllDependents (g : DependencyGraph) (path : String) : List String :=
  (closureDFS g.dependents (traversalFuel g * (traversalFuel g + 1)) [path] [] []).2

/-- GetAllDependencies (7.4.3): transitive dependencies by DFS with a
visited set. -/
def getAllDependencies (g : DependencyGraph) (path : String) : List String :=
  (closureDFS g.dependencies (traversalFuel g * (traversalFuel g + 1)) [path] [] []).2

mutual

/-- HasCycle (7.4.5) inner DFS: visits a node, pushes it on the recursion
stack, and scans its dependencies; finding a stacked node is a cycle.
The recursion stack is passed downward only, so it pops on return. -/
def cycleDFS (dependencies : List (String × List String)) :
    Nat → String → List String → List String → Bool × List String
  | 0, _, visited, _ => (false, visited)
  | f + 1, p, visited, stack =>
      cycleScan dependencies f ((alookup dependencies p).getD [])
        (saddPath visited p) (saddPath stack p)

/-- HasCycle (7.4.5) dependency scan (step 3.c). -/
def cycleScan (dependencies : List (String × List String)) :
    Nat → List String → List String → List String → Bool × List String
  | 0, _, visited, _ => (false, visited)
  | _ + 1, [], visited, _ => (false, visited)
  | f + 1, dep :: rest, visited, stack =>
      if !visited.contains dep then
        match cycleDFS dependencies f dep visited stack with
        | (true, v2) => (true, v2)
        | (false, v2) => cycleScan dependencies f rest v2 stack
      else if stack.contains dep then (true, visited)
      else cycleScan dependencies f rest visited stack

end

/-- HasCycle (7.4.5) outer loop: start a DFS from every unvisited node. -/
def hasCycleOuter (dependencies : List (String × List String)) (fuel : Nat) :
    List String → List String → Bool
  | [], _ => false
  | p :: rest, visited =>
      if visited.contains p then hasCycleOuter dependencies fuel rest visited
      else
        match cycleDFS dependencies fuel p visited [] with
        | (true, _) => true
        | (false, v2) => hasCycleOuter dependencies fuel rest v2

/-- HasCycle (7.4.5): DFS with a recursion stack over the dependency
edges. -/
def hasCycle (g : DependencyGraph) : Bool :=
  hasCycleOuter g.dependencies (traversalFuel g * (traversalFuel g + 1))
    (g.nodes.map (fun n => n.1)) []

/-- FindCyclicDependencies (6.4.5): a dependency graph is built from the
domain and searched by DFS with a recursion stack; each discovered cycle
contributes a CYCLIC_DEPENDENCY error. -/
def findCyclicDependencies (dom : Domain) : List ValidationIssue :=
  if hasCycle (buildDependencyGraph dom) then
    [⟨"CYCLIC_DEPENDENCY", "Circular dependency detected in DAG", "", "error"⟩]
  else []

/-- CollectAllPaths (6.4.3): all declared paths, including the async
companion state paths. -/
def collectAllPaths (dom : Domain) : List String :=
  let s1 := dom.sources.foldl (fun acc e => saddPath acc e.1) []
  let s2 := dom.derived.foldl (fun acc e => saddPath acc e.1) s1
  dom.async.foldl
    (fun acc e =>
      saddPath (saddPath (saddPath (saddPath acc e.1) e.2.resultPath)
        e.2.loadingPath) e.2.errorPath)
    s2

/-- IsBuiltInPath (5.4.3): paths beginning with the character $ are
resolved by the evaluator context and excluded from dependency
analysis. -/
def isBuiltInPath (path : String) : Bool := strStartsWith path "$"

/-- FindMissingDependencies (6.4.4): every declared dep of a derived,
async or action definition must be a declared path or built-in. -/
def findMissingDependencies (dom : Domain) (allPaths : List String) :
    List ValidationIssue :=
  let missingIssue := fun (owner dep : String) =>
    (⟨"MISSING_DEPENDENCY", "Referenced path is not defined: " ++ dep, owner,
      "error"⟩ : ValidationIssue)
  let i1 := dom.derived.foldl
    (fun acc e => acc ++ e.2.deps.filterMap (fun dep =>
      if !allPaths.contains dep && !isBuiltInPath dep then some (missingIssue e.1 dep)
      else none)) []
  let i2 := dom.async.foldl
    (fun acc e => acc ++ e.2.deps.filterMap (fun dep =>
      if !allPaths.contains dep && !isBuiltInPath dep then some (missingIssue e.1 dep)
      else none)) i1
  dom.actions.foldl
    (fun acc e => acc ++ e.2.deps.filterMap (fun dep =>
      if !allPaths.contains dep && !isBuiltInPath dep then some (missingIssue e.1 dep)
      else none)) i2

/-- ValidateActions (6.4.6): precondition paths must be declared or
built-in, and a missing semantic verb is a warning. -/
def validateActions (dom : Domain) (allPaths : List String) : List ValidationIssue :=
  dom.actions.foldl
    (fun acc e =>
      let pre := e.2.preconditions.filterMap (fun cond =>
        if !allPaths.contains cond.path && !isBuiltInPath cond.path then
          some ⟨"INVALID_PRECONDITION_PATH",
            "Precondition references undefined path: " ++ cond.path, e.1, "error"⟩
        else none)
      let verb := if e.2.verb = "" then
          [(⟨"ACTION_VERB_REQUIRED", "Action missing semantic verb", e.1,
            "warning"⟩ : ValidationIssue)]
        else []
      acc ++ pre ++ verb)
    []

/-- ValidateDomainOptions (6.4.1), all defaulting to true. -/
structure ValidateDomainOptions where
  checkCycles : Bool := true
  checkUnused : Bool := true
  checkMissingDeps : Bool := true

/-- ValidateDomain (6.4.2): identity checks, missing-dependency and cycle
analysis, action validation, and validity defined as the absence of
error-severity issues. -/
def validateDomain (dom : Domain) (options : ValidateDomainOptions) : ValidationResult :=
  let i1 : List ValidationIssue :=
    if dom.id = "" then
      [⟨"DOMAIN_ID_REQUIRED", "Domain id is missing or empty", "", "error"⟩]
    else []
  let i2 := if dom.name = "" then
      i1 ++ [⟨"DOMAIN_NAME_REQUIRED", "Domain name is missing or empty", "", "error"⟩]
    else i1
  let allPaths := collectAllPaths dom
  let i3 := if options.checkMissingDeps then i2 ++ findMissingDependencies dom allPaths
    else i2
  let i4 := if options.checkCycles then i3 ++ findCyclicDependencies dom else i3
  let issues := i4 ++ validateActions dom allPaths
  ⟨!issues.any (fun i => i.severity = "error"), issues⟩

/-- PropagationResult (7.5.1): recorded changes, triggered async effects
in order, and per-path derived-computation errors. -/
structure PropagationResult where
  changes : List (String × Value)
  pendingEffects : List (String × Effect)
  errors : List (String × String)

/-- CreatePropagationContext (7.5.4): reads resolve against the
in-progress changes map first and fall back to the input snapshot, so
later nodes of a pass see earlier recomputations. -/
def createPropagationContext (S : Snapshot) (changes : List (String × Value)) :
    EvaluationContext :=
  ⟨fun p =>
    match alookup changes p with
    | some v => v
    | none => getValueByPath S p⟩

/-- GetAffectedOrder (7.5.3): the changed paths and all their transitive
dependents, in the order of the cached topological order. -/
def getAffectedOrder (g : DependencyGraph) (changedPaths : List String) : List String :=
  let affected := changedPaths.foldl
    (fun acc p => (getAllDependents g p).foldl saddPath acc)
    (changedPaths.foldl saddPath [])
  g.topologicalOrder.filter (fun p => affected.contains p)

/-- EvaluateAsyncCondition: an async node with no condition triggers; a
condition triggers on a truthy evaluation, and an evaluation failure does
not trigger. -/
def evaluateAsyncCondition (defn : AsyncDef) (ctx : EvaluationContext) : Bool :=
  match defn.condition with
  | none => true
  | some c =>
      match evaluate c ctx with
      | .ok v => truthy v
      | .error _ => false

/-- Accumulator state of one propagation pass. -/
structure PropState where
  changes : List (String × Value)
  pendingEffects : List (String × Effect)
  errors : List (String × String)

/-- Propagate (7.5.2) body for a single path of the affected order: a
missing node is skipped; a changed source is recorded verbatim from the
snapshot; a derived node is re-evaluated against the propagation context
and recorded only when the new value is not deep-equal to its previous
value, an evaluation failure being recorded per-path in errors; an async
node whose condition holds sets its loading flag and appends its effect
to the pending list. -/
def propagateStep (g : DependencyGraph) (changedPaths : List String) (S : Snapshot)
    (st : PropState) (p : String) : PropState :=
  match alookup g.nodes p with
  | none => st
  | some .source =>
      if changedPaths.contains p then
        { st with changes := ainsert st.changes p (getValueByPath S p) }
      else st
  | some (.derived defn) =>
      match evaluate defn.expr (createPropagationContext S st.changes) with
      | .ok v =>
          if deepEqual v (getValueByPath S p) then st
          else { st with changes := ainsert st.changes p v }
      | .error e => { st with errors := st.errors ++ [(p, e)] }
  | some (.async defn) =>
      if evaluateAsyncCondition defn (createPropagationContext S st.changes) then
        { st with
          changes := ainsert st.changes defn.loadingPath (.bool true),
          pendingEffects := st.pendingEffects ++ [(p, defn.effect)] }
      else st

/-- One pass over a list of paths, threading the accumulator; an error
recorded at one path never stops the walk. -/
def propagateLoop (g : DependencyGraph) (changedPaths : List String) (S : Snapshot)
    (st : PropState) (order : List String) : PropState :=
  order.foldl (propagateStep g changedPaths S) st

/-- Propagate (7.5.2): one walk of the affected order starting from the
empty accumulator. -/
def propagate (g : DependencyGraph) (changedPaths : List String) (S : Snapshot) :
    PropagationResult :=
  let st := propagateLoop g changedPaths S ⟨[], [], []⟩ (getAffectedOrder g changedPaths)
  ⟨st.changes, st.pendingEffects, st.errors⟩

/-- CollectChangedPaths (7.8.8): direct changes unioned with every path
the propagation recorded. -/
def collectChangedPaths (directChanges : List String) (r : PropagationResult) :
    List String :=
  r.changes.foldl (fun acc e => saddPath acc e.1) (directChanges.foldl saddPath [])

/-- The snapshot after applying the recorded propagation changes, one
SetValueByPath per change as in CreateRuntime step 7. -/
def applyChanges (S : Snapshot) (changes : List (String × Value)) : Snapshot :=
  changes.foldl (fun acc e => setValueByPath acc e.1 e.2) S

/-- Fallback issue for the defensive head access of 7.7.2 step 2.a. -/
def unknownIssue : ValidationIssue := ⟨"UNKNOWN", "", "", "error"⟩

/-- set (7.7.2): validate the write against the current snapshot, and on
failure return the first issue with the snapshot unchanged and nothing
pending; on success apply the write, propagate from the written path, and
apply the recorded changes.  The returned triple is the call result, the
new current snapshot, and the pending effects to execute. -/
def runtimeSet (dom : Domain) (g : DependencyGraph) (S : Snapshot) (path : String)
    (value : Value) : Except ValidationIssue Unit × Snapshot × List (String × Effect) :=
  let vr := validateWriteOperation S path value dom
  if vr.valid = false then
    (.error (vr.issues.headD unknownIssue), S, [])
  else
    let newSnapshot := setValueByPath S path value
    let pr := propagate g [path] newSnapshot
    (.ok (), applyChanges newSnapshot pr.changes, pr.pendingEffects)

/-! Concrete artifacts used by the verification theorems below. -/

/-- Schema collaborator that accepts every value. -/
def anySchema : SourceDef := ⟨fun _ => ⟨true, []⟩⟩

/-- The price/tax/total example domain of 7.8.8 and the propagation
property: data.price is the only source, derived.tax multiplies it by
0.1, derived.total adds price and tax. -/
def priceDomain : Domain :=
  { id := "price", name := "price",
    sources := [("data.price", anySchema)],
    derived :=
      [("derived.tax",
        ⟨[], .app "*" [.app "get" [.lit (.str "data.price")], .lit (.num (qmk 1 10))]⟩),
       ("derived.total",
        ⟨[], .app "+" [.app "get" [.lit (.str "data.price")],
          .app "get" [.lit (.str "derived.tax")]]⟩)],
    async := [], actions := [], invariants := [] }

/-- Snapshot of the price domain with price 100 and consistently derived
tax 10 and total 110. -/
def priceSnapshot : Snapshot :=
  { data := .obj [("price", .num 100)], state := .obj [],
    derived := .obj [("tax", .num 10), ("total", .num 110)], validity := .obj [],
    timestamp := 0, version := 5 }

/-- Dependency graph of the price domain. -/
def priceGraph : DependencyGraph := buildDependencyGraph priceDomain

/-- Snapshot after writing 200 to data.price. -/
def priceSnapshot2 : Snapshot := setValueByPath priceSnapshot "data.price" (.num 200)

/-- Propagation run for the price write. -/
def priceRun : PropagationResult := propagate priceGraph ["data.price"] priceSnapshot2

/-- Two-node cycle domain: derived.a depends on derived.b and
derived.b depends on derived.a. -/
def cycleDomain : Domain :=
  { id := "cyc", name := "cyc", sources := [],
    derived :=
      [("derived.a", ⟨["derived.b"], .app "get" [.lit (.str "derived.b")]⟩),
       ("derived.b", ⟨["derived.a"], .app "get" [.lit (.str "derived.a")]⟩)],
    async := [], actions := [], invariants := [] }

/-- Domain with one derived node whose expression fails to evaluate
(unknown operator) and an unrelated derived node whose recomputation
reproduces its previous value. -/
def failureDomain : Domain :=
  { id := "fail", name := "fail",
    sources := [("data.x", anySchema)],
    derived :=
      [("derived.bad", ⟨[], .app "nosuch" [.app "get" [.lit (.str "data.x")]]⟩),
       ("derived.same", ⟨[], .app "*" [.app "get" [.lit (.str "data.x")], .lit (.num 0)]⟩)],
    async := [], actions := [], invariants := [] }

/-- Graph of the failure domain. -/
def failureGraph : DependencyGraph := buildDependencyGraph failureDomain

/-- Snapshot of the failure domain after data.x was set to 2; derived.same
previously computed 0, which its recomputation reproduces. -/
def failureSnapshot : Snapshot :=
  { data := .obj [("x", .num 2)], state := .obj [],
    derived := .obj [("bad", .absent), ("same", .num 0)], validity := .obj [],
    timestamp := 0, version := 1 }

/-- Propagation run for the failure domain. -/
def failureRun : PropagationResult := propagate failureGraph ["data.x"] failureSnapshot

/-- Runner configuration whose api host always throws. -/
def failingApiConfig : RunConfig :=
  ⟨⟨fun _ => .absent⟩, fun _ _ _ => .error ⟨"HOST_ERROR", "boom"⟩⟩

/-- Try child that fails: an ApiCall against the throwing host. -/
def failingTry : Effect := .apiCall (.lit (.str "/x")) [] []

/-- Catch child: an event emission. -/
def catchChild : Effect := .emitEvent "caught" .null

/-- Finally child: an event emission. -/
def finallyChild : Effect := .emitEvent "cleanup" .null

/-- A get whose path argument is a literal string followed by an extra
argument containing a further get: the walk of ExtractPaths stops at the
static path. -/
def extraArgGet : Expr :=
  .app "get" [.lit (.str "data.x"), .app "get" [.lit (.str "data.y")]]

/-- A dynamically addressed get: the path argument is itself a concat
expression containing a nested static get. -/
def dynamicGet : Expr :=
  .app "get" [.app "concat" [.lit (.str "data."), .app "get" [.lit (.str "data.key")]]]

mutual

/-- Well-formedness used by the dependency-extraction characterization:
every get node carries exactly one argument, as the GetExpr grammar
requires of both static and dynamically addressed reads. -/
def unaryGets : Expr → Bool
  | .lit _ => true
  | .app op args =>
      (if op = "get" then args.length = 1 else true) && unaryGetsList args
termination_by structural e => e

def unaryGetsList : List Expr → Bool
  | [] => true
  | e :: rest => unaryGets e && unaryGetsList rest
termination_by structural es => es

end

/-! Claim theorems. -/

/-- C1: evaluating the division expression with a zero divisor does not
fail the evaluation; following 5.7 (division by zero returns Infinity or
-Infinity) and the arithmetic step of the Evaluate algorithm (5.16 item
n), it succeeds with an infinity sentinel, positive for a positive
dividend and negative for a negative one, and NaN for 0/0 — contradicting
the error-conditions table of the same evaluate function (5.19.3), which
the claim states. -/
theorem divide_by_zero_returns_infinity :
    evaluate (.app "/" [.lit (.num 1), .lit (.num 0)]) ⟨fun _ => .absent⟩
      = .ok (.inf true)
    ∧ evaluate (.app "/" [.lit (.num (-3)), .lit (.num 0)]) ⟨fun _ => .absent⟩
      = .ok (.inf false)
    ∧ evaluate (.app "/" [.lit (.num 0), .lit (.num 0)]) ⟨fun _ => .absent⟩
      = .ok .nan := by
  decide

/-- C3: for every snapshot, path accepted by path-write validation, and
value, SetValueByPath yields a snapshot whose version is exactly the old
version plus one, strictly greater than before (so no operation decreases
it), and distinct from the input snapshot; the input snapshot is a pure
value of the embedding and is therefore unchanged by construction. -/
theorem setValueByPath_version_increment (S : Snapshot) (p : String) (v : Value)
    (hvalid : validatePathWrite p = none) :
    (setValueByPath S p v).version = S.version + 1
    ∧ S.version < (setValueByPath S p v).version
    ∧ setValueByPath S p v ≠ S := by
  refine ⟨rfl, by simp [setValueByPath], fun h => ?_⟩
  have hv := congrArg Snapshot.version h
  simp [setValueByPath] at hv

/-- C3 witness: a concrete accepted write bumps the version from 5 to 6
and produces a distinct snapshot. -/
theorem setValueByPath_version_increment_witness :
    validatePathWrite "data.price" = none
    ∧ ((setValueByPath priceSnapshot "data.price" (.num 200)).version
        = priceSnapshot.version + 1
      ∧ priceSnapshot.version < (setValueByPath priceSnapshot "data.price" (.num 200)).version
      ∧ setValueByPath priceSnapshot "data.price" (.num 200) ≠ priceSnapshot) :=
  ⟨by decide,
   setValueByPath_version_increment priceSnapshot "data.price" (.num 200) (by decide)⟩

/-- C4 counterexample: on the two-node cycle domain, BuildDependencyGraph
does not signal a construction error — it returns a graph carrying both
derived nodes whose cached topological order merely omits every node of
the cycle. -/
theorem buildGraph_cycle_no_failure :
    (buildDependencyGraph cycleDomain).topologicalOrder = []
    ∧ (buildDependencyGraph cycleDomain).nodes.length = 2
    ∧ (buildDependencyGraph cycleDomain).topologicalOrder.contains "derived.a" = false
    ∧ ((buildDependencyGraph cycleDomain).nodes.map (fun n => n.1))
        = ["derived.a", "derived.b"] := by
  decide

/-- C4 amended: cycle rejection happens in domain validation, not inside
graph construction: for the cyclic example domain, ValidateDomain (with
checkCycles at its default) reports a CYCLIC_DEPENDENCY error and marks
the domain invalid, HasCycle on the constructed graph detects the cycle,
and the Kahn order of the constructed graph omits the cycle nodes while
the construction still returns the graph. -/
theorem cycle_rejected_by_domain_validation :
    (validateDomain cycleDomain {}).valid = false
    ∧ ((validateDomain cycleDomain {}).issues.any
        (fun i => i.code = "CYCLIC_DEPENDENCY")) = true
    ∧ hasCycle (buildDependencyGraph cycleDomain) = true
    ∧ (buildDependencyGraph cycleDomain).topologicalOrder = []
    ∧ (buildDependencyGraph cycleDomain).nodes.length = 2 := by
  decide

/-- C5: setting data.price to 200 on the consistent price snapshot yields
the changed-path set exactly data.price, derived.tax, derived.total, with
derived.total recomputed to 220; the propagation context read the
in-progress recomputation of derived.tax (20) although the input snapshot
still held 10, which is why derived.total is 220 rather than the stale
110. -/
theorem propagation_completeness_price_example :
    collectChangedPaths ["data.price"] priceRun
      = ["data.price", "derived.tax", "derived.total"]
    ∧ priceRun.changes
      = [("data.price", .num 200), ("derived.tax", .num 20), ("derived.total", .num 220)]
    ∧ alookup priceRun.changes "derived.total" = some (.num 220)
    ∧ getValueByPath priceSnapshot2 "derived.tax" = .num 10
    ∧ priceRun.errors = [] ∧ priceRun.pendingEffects.length = 0 := by
  decide

/-- C6: writing to any derived path fails validation with
READONLY_VIOLATION in phase 1, before bounds, schema, invariants or
propagation run, and the set operation returns the unchanged snapshot and
no pending effects. -/
theorem derived_write_always_rejected (dom : Domain) (g : DependencyGraph)
    (S : Snapshot) (p : String) (v : Value)
    (hp : strStartsWith p "derived." = true) :
    runtimeSet dom g S p v
      = (.error ⟨"READONLY_VIOLATION", "Attempt to write to derived path", p, "error"⟩,
         S, []) := by
  simp [runtimeSet, validateWriteOperation, validatePathWrite, hp]

/-- C6 witness: the write of 1 to derived.x against the price domain is
rejected with the snapshot returned unchanged. -/
theorem derived_write_always_rejected_witness :
    strStartsWith "derived.x" "derived." = true
    ∧ runtimeSet priceDomain priceGraph priceSnapshot "derived.x" (.num 1)
      = (.error ⟨"READONLY_VIOLATION", "Attempt to write to derived path",
          "derived.x", "error"⟩, priceSnapshot, []) :=
  ⟨by decide,
   derived_write_always_rejected priceDomain priceGraph priceSnapshot "derived.x"
     (.num 1) (by decide)⟩

/-- C7: for every pair of expressions whose evaluations succeed, the ==
expression returns exactly the deep structural comparison of the two
values — which agrees with structural equality of the value model, so
distinct occurrences of compound values with identical contents compare
equal — and != returns its negation. -/
theorem equality_is_deep_structural (a b : Expr) (ctx : EvaluationContext)
    (va vb : Value) (ha : evaluate a ctx = .ok va) (hb : evaluate b ctx = .ok vb) :
    evaluate (.app "==" [a, b]) ctx = .ok (.bool (deepEqual va vb))
    ∧ (deepEqual va vb = true ↔ va = vb)
    ∧ evaluate (.app "!=" [a, b]) ctx = .ok (.bool (!deepEqual va vb)) := by
  refine ⟨?_, deepEqual_iff va vb, ?_⟩ <;>
    simp [evaluate, ha, hb, bind, Except.bind, pure, Except.pure]

/-- C7 witness: two separately written array values with identical
contents compare equal under ==, and != returns false on them. -/
theorem equality_is_deep_structural_witness :
    evaluate (.lit (.arr [.num 1, .str "x"])) ⟨fun _ => .absent⟩
      = .ok (.arr [.num 1, .str "x"])
    ∧ (evaluate (.app "==" [.lit (.arr [.num 1, .str "x"]), .lit (.arr [.num 1, .str "x"])])
        ⟨fun _ => .absent⟩
        = .ok (.bool (deepEqual (.arr [.num 1, .str "x"]) (.arr [.num 1, .str "x"])))
      ∧ (deepEqual (Value.arr [.num 1, .str "x"]) (.arr [.num 1, .str "x"]) = true
          ↔ (Value.arr [.num 1, .str "x"]) = .arr [.num 1, .str "x"])
      ∧ evaluate (.app "!=" [.lit (.arr [.num 1, .str "x"]), .lit (.arr [.num 1, .str "x"])])
          ⟨fun _ => .absent⟩
        = .ok (.bool (!deepEqual (.arr [.num 1, .str "x"]) (.arr [.num 1, .str "x"])))) :=
  ⟨by decide,
   equality_is_deep_structural (.lit (.arr [.num 1, .str "x"]))
     (.lit (.arr [.num 1, .str "x"])) ⟨fun _ => .absent⟩ _ _ (by decide) (by decide)⟩

/-- Traversal distributes over segment concatenation. -/
theorem traverseSegs_append (v : Value) (l₁ l₂ : List String) :
    traverseSegs v (l₁ ++ l₂)
      = match traverseSegs v l₁ with
        | some w => traverseSegs w l₂
        | none => none := by
  induction l₁ generalizing v with
  | nil => simp [traverseSegs]
  | cons s rest ih =>
      simp only [List.cons_append, traverseSegs]
      cases lookupChild v s with
      | none => rfl
      | some child => exact ih child

/-- C9: for every snapshot and every read path whose traversal reaches a
value at which the next segment is missing, GetValueByPath returns the
absent value, whatever segments follow — resolution is a total function
into values and signals no error. -/
theorem missing_intermediate_reads_absent (S : Snapshot) (path ns seg : String)
    (pre rest : List String) (w : Value)
    (hsplit : splitSegs path = ns :: (pre ++ seg :: rest))
    (htrav : traverseSegs (namespaceRoot S ns) pre = some w)
    (hmiss : lookupChild w seg = none) :
    getValueByPath S path = .absent := by
  unfold getValueByPath
  rw [hsplit]
  show (match traverseSegs (namespaceRoot S ns) (pre ++ seg :: rest) with
        | some v => v
        | none => Value.absent) = Value.absent
  rw [traverseSegs_append, htrav]
  simp [traverseSegs, hmiss]

/-- C9 witness: reading data.missing.deep from the price snapshot, whose
data object has no key missing, yields the absent value. -/
theorem missing_intermediate_reads_absent_witness :
    splitSegs "data.missing.deep" = "data" :: ([] ++ "missing" :: ["deep"])
    ∧ traverseSegs (namespaceRoot priceSnapshot "data") [] = some priceSnapshot.data
    ∧ lookupChild priceSnapshot.data "missing" = none
    ∧ getValueByPath priceSnapshot "data.missing.deep" = .absent :=
  ⟨by decide, by decide, by decide,
   missing_intermediate_reads_absent priceSnapshot "data.missing.deep" "data" "missing"
     [] ["deep"] priceSnapshot.data (by decide) (by decide) (by decide)⟩

/-- C2: for every Catch effect carrying a finally child, when the try
child fails the catch child runs, then the finally child, and the overall
result is the catch child result — witnessed by the handler trace, which
is the try trace followed by the catch trace followed by the finally
trace; when the try child succeeds, the finally child still runs and the
overall result is the try child result. -/
theorem catch_runs_catch_then_finally (tryEff catchEff finEff : Effect)
    (cfg : RunConfig) :
    (∀ e, (runEffect tryEff cfg).1 = .error e →
      runEffect (.catchE tryEff catchEff (some finEff)) cfg
        = ((runEffect catchEff cfg).1,
           (runEffect tryEff cfg).2 ++ (runEffect catchEff cfg).2
             ++ (runEffect finEff cfg).2))
    ∧ (∀ v, (runEffect tryEff cfg).1 = .ok v →
      runEffect (.catchE tryEff catchEff (some finEff)) cfg
        = (.ok v, (runEffect tryEff cfg).2 ++ (runEffect finEff cfg).2)) := by
  rcases hre : runEffect tryEff cfg with ⟨r, t1⟩
  constructor
  · intro e he
    simp only at he
    subst he
    simp [runEffect, hre, catchCombine]
  · intro v hv
    simp only at hv
    subst hv
    simp [runEffect, hre, catchCombine]

/-- C2 witness: a failing ApiCall try child followed by event-emitting
catch and finally children: the run emits the api call, then the caught
event, then the cleanup event, and returns the catch child result. -/
theorem catch_runs_catch_then_finally_witness :
    (runEffect failingTry failingApiConfig).1
      = .error ⟨"API_CALL_FAILED", "boom"⟩
    ∧ runEffect (.catchE failingTry catchChild (some finallyChild)) failingApiConfig
      = ((runEffect catchChild failingApiConfig).1,
         (runEffect failingTry failingApiConfig).2
           ++ (runEffect catchChild failingApiConfig).2
           ++ (runEffect finallyChild failingApiConfig).2) :=
  ⟨by simp [runEffect, runApiCallEff, failingTry, failingApiConfig,
      evaluateIfExpression, evaluateRecord],
   (catch_runs_catch_then_finally failingTry catchChild finallyChild
     failingApiConfig).1 ⟨"API_CALL_FAILED", "boom"⟩
     (by simp [runEffect, runApiCallEff, failingTry, failingApiConfig,
       evaluateIfExpression, evaluateRecord])⟩

/-- Lookup after an association-list update. -/
theorem alookup_ainsert (m : List (String × α)) (k k2 : String) (v : α) :
    alookup (ainsert m k2 v) k = if k2 = k then some v else alookup m k := by
  induction m with
  | nil => simp [ainsert, alookup]
  | cons hd tl ih =>
      obtain ⟨hk, hv⟩ := hd
      by_cases h1 : hk = k2
      · subst h1
        by_cases h2 : hk = k <;> simp [ainsert, alookup, h2]
      · have h1s : ¬k2 = hk := fun hh => h1 hh.symm
        by_cases h2 : hk = k
        · subst h2
          simp [ainsert, alookup, h1, h1s]
        · simp [ainsert, alookup, h1, h2, ih]

/-- One propagation step never discards recorded errors. -/
theorem propagateStep_errors_mono (g : DependencyGraph) (cps : List String)
    (S : Snapshot) (st : PropState) (q : String) (x : String × String)
    (hx : x ∈ st.errors) : x ∈ (propagateStep g cps S st q).errors := by
  unfold propagateStep
  cases alookup g.nodes q with
  | none => exact hx
  | some node =>
      cases node with
      | source => by_cases h : q ∈ cps <;> simp [h, hx]
      | derived defn =>
          rcases hev : evaluate defn.expr (createPropagationContext S st.changes) with e | v
          · simp [hev, hx]
          · by_cases h : deepEqual v (getValueByPath S q) = true <;> simp [hev, h, hx]
      | async defn =>
          by_cases h : evaluateAsyncCondition defn (createPropagationContext S st.changes)
            = true <;> simp [h, hx]

/-- One propagation step never removes a recorded change key. -/
theorem propagateStep_changes_mono (g : DependencyGraph) (cps : List String)
    (S : Snapshot) (st : PropState) (q p : String)
    (hp : alookup st.changes p ≠ none) :
    alookup (propagateStep g cps S st q).changes p ≠ none := by
  unfold propagateStep
  cases alookup g.nodes q with
  | none => exact hp
  | some node =>
      cases node with
      | source =>
          by_cases h : q ∈ cps
          · simp [h, alookup_ainsert]
            split <;> simp [hp]
          · simp [h, hp]
      | derived defn =>
          rcases hev : evaluate defn.expr (createPropagationContext S st.changes) with e | v
          · simp [hev, hp]
          · by_cases h : deepEqual v (getValueByPath S q) = true
            · simp [hev, h, hp]
            · simp only [hev, h]
              simp [alookup_ainsert]
              split <;> simp [hp]
      | async defn =>
          by_cases h : evaluateAsyncCondition defn (createPropagationContext S st.changes)
            = true
          · simp only [h, if_true]
            simp [alookup_ainsert]
            split <;> simp [hp]
          · simp [h, hp]

/-- The propagation walk never discards recorded errors. -/
theorem propagateLoop_errors_mono (g : DependencyGraph) (cps : List String)
    (S : Snapshot) (order : List String) (st : PropState) (x : String × String)
    (hx : x ∈ st.errors) : x ∈ (propagateLoop g cps S st order).errors := by
  induction order generalizing st with
  | nil => exact hx
  | cons q rest ih =>
      exact ih _ (propagateStep_errors_mono g cps S st q x hx)

/-- The propagation walk never removes a recorded change key. -/
theorem propagateLoop_changes_mono (g : DependencyGraph) (cps : List String)
    (S : Snapshot) (order : List String) (st : PropState) (p : String)
    (hp : alookup st.changes p ≠ none) :
    alookup (propagateLoop g cps S st order).changes p ≠ none := by
  induction order generalizing st with
  | nil => exact hp
  | cons q rest ih =>
      exact ih _ (propagateStep_changes_mono g cps S st q p hp)

/-- C8 counterexample: in the failure-domain run, derived.same is in the
affected order, does not depend on the failed node, and recomputes
successfully — yet it is absent from changes, because its recomputed
value deep-equals its previous value; the claim that every affected path
not depending on the failed evaluation is recorded in changes therefore
fails, while the failure itself is recorded per-path. -/
theorem propagate_unchanged_value_not_recorded :
    (getAffectedOrder failureGraph ["data.x"]).contains "derived.same" = true
    ∧ failureRun.errors = [("derived.bad", "Unknown operator: nosuch")]
    ∧ alookup failureRun.changes "derived.same" = none
    ∧ alookup failureRun.changes "data.x" = some (.num 2) := by
  decide

/-- C8 amended: a derived evaluation failure is recorded per-path in
errors and never aborts the walk: for every propagation run and every
derived node of the affected order, splitting the affected order around
that node, if its evaluation in its pass context fails then that path and
error appear in the final errors, and if its evaluation succeeds with a
value not deep-equal to its previous one then the path is recorded in the
final changes — independently of failures at any other path. -/
theorem propagate_isolates_failures (g : DependencyGraph) (changedPaths : List String)
    (S : Snapshot) (l₁ l₂ : List String) (p : String) (defn : DerivedDef)
    (horder : getAffectedOrder g changedPaths = l₁ ++ p :: l₂)
    (hnode : alookup g.nodes p = some (.derived defn)) :
    (∀ e, evaluate defn.expr (createPropagationContext S
        (propagateLoop g changedPaths S ⟨[], [], []⟩ l₁).changes) = .error e →
      (p, e) ∈ (propagate g changedPaths S).errors)
    ∧ (∀ v, evaluate defn.expr (createPropagationContext S
        (propagateLoop g changedPaths S ⟨[], [], []⟩ l₁).changes) = .ok v →
      deepEqual v (getValueByPath S p) = false →
      alookup (propagate g changedPaths S).changes p ≠ none) := by
  have hsplit : propagate g changedPaths S
      = (fun st => PropagationResult.mk st.changes st.pendingEffects st.errors)
        (propagateLoop g changedPaths S
          (propagateStep g changedPaths S
            (propagateLoop g changedPaths S ⟨[], [], []⟩ l₁) p) l₂) := by
    unfold propagate propagateLoop
    rw [horder, List.foldl_append]
    rfl
  constructor
  · intro e he
    rw [hsplit]
    refine propagateLoop_errors_mono g changedPaths S l₂ _ (p, e) ?_
    unfold propagateStep
    rw [hnode]
    simp [he]
  · intro v hv hne
    rw [hsplit]
    refine propagateLoop_changes_mono g changedPaths S l₂ _ p ?_
    unfold propagateStep
    rw [hnode]
    simp [hv, hne, alookup_ainsert]

/-- C8 amended witness: in the failure-domain run, splitting the affected
order around derived.bad, its evaluation fails with the unknown-operator
error, and that pair is recorded in the final errors. -/
theorem propagate_isolates_failures_witness :
    getAffectedOrder failureGraph ["data.x"]
      = ["data.x"] ++ "derived.bad" :: ["derived.same"]
    ∧ alookup failureGraph.nodes "derived.bad"
      = some (.derived ⟨[], .app "nosuch" [.app "get" [.lit (.str "data.x")]]⟩)
    ∧ evaluate (Expr.app "nosuch" [.app "get" [.lit (.str "data.x")]])
        (createPropagationContext failureSnapshot
          (propagateLoop failureGraph ["data.x"] failureSnapshot ⟨[], [], []⟩
            ["data.x"]).changes)
      = .error "Unknown operator: nosuch"
    ∧ ("derived.bad", "Unknown operator: nosuch")
        ∈ (propagate failureGraph ["data.x"] failureSnapshot).errors :=
  ⟨by decide, by rfl, by decide,
   (propagate_isolates_failures failureGraph ["data.x"] failureSnapshot
     ["data.x"] ["derived.same"] "derived.bad"
     ⟨[], .app "nosuch" [.app "get" [.lit (.str "data.x")]]⟩
     (by decide) (by rfl)).1 "Unknown operator: nosuch" (by decide)⟩

/-- Membership in the path-set union. -/
theorem mem_unionPaths (q : String) (xs ys : List String) :
    q ∈ unionPaths xs ys ↔ q ∈ xs ∨ q ∈ ys := by
  simp only [unionPaths, List.mem_append, List.mem_filter]
  by_cases h : q ∈ xs <;> simp [h]

/-- C10 counterexample: in a get carrying its literal path plus an extra
argument containing a further get, the nested get with path data.y is a
get subexpression with a literal non-dollar path argument, yet
ExtractPaths returns only data.x — the walk stops once the static path is
taken, so the returned set is not the full set of literal get path
arguments. -/
theorem extractPaths_not_all_subexpressions :
    getSubexpressionPaths extraArgGet = ["data.x", "data.y"]
    ∧ extractPaths extraArgGet = ["data.x"]
    ∧ "data.y" ∈ getSubexpressionPaths extraArgGet
    ∧ "data.y" ∉ extractPaths extraArgGet := by
  decide

mutual

/-- C10 amended, expression part: for every expression whose get nodes
carry exactly one argument (the shape of both static and dynamically
addressed reads), ExtractPaths returns exactly the literal non-dollar
path arguments of the get subexpressions: a dynamically addressed get
contributes nothing for its own target while get nodes nested inside its
argument are still collected, so graph construction records no dependency
edge for a dynamic read. -/
theorem extractPaths_subexpr (e : Expr) (hu : unaryGets e = true) (q : String) :
    q ∈ extractPaths e ↔ q ∈ getSubexpressionPaths e := by
  cases e with
  | lit v => simp [extractPaths, getSubexpressionPaths, subterms, staticGetArg]
  | app op args =>
      simp only [unaryGets] at hu
      rw [Bool.and_eq_true] at hu
      obtain ⟨hu1, hu2⟩ := hu
      by_cases hop : op = "get"
      · subst hop
        simp only [if_pos rfl] at hu1
        match args, hu1 with
        | [a], _ =>
            match a with
            | .lit (.str p) =>
                by_cases hd : strStartsWith p "$" = true <;>
                  simp [extractPaths, getSubexpressionPaths, subterms, subtermsList,
                    staticGetArg, extractPathsList, unionPaths, hd]
            | .lit .absent | .lit .null | .lit (.bool _) | .lit (.num _) | .lit (.inf _)
            | .lit .nan | .lit (.arr _) | .lit (.obj _) =>
                simp [extractPaths, getSubexpressionPaths, subterms, subtermsList,
                  staticGetArg, extractPathsList, unionPaths]
            | .app op2 args2 =>
                have hlist := extractPathsList_subexpr [.app op2 args2] hu2 q
                simp [extractPaths, hlist, getSubexpressionPaths, subterms,
                  subtermsList, staticGetArg]
      · have hlist := extractPathsList_subexpr args hu2 q
        simp [extractPaths, hop, hlist, getSubexpressionPaths, subterms,
          subtermsList, staticGetArg]

/-- C10 amended, argument-list part. -/
theorem extractPathsList_subexpr (es : List Expr) (hu : unaryGetsList es = true)
    (q : String) :
    q ∈ extractPathsList es ↔ q ∈ (subtermsList es).filterMap staticGetArg := by
  cases es with
  | nil => simp [extractPathsList, subtermsList]
  | cons e rest =>
      rw [unaryGetsList, Bool.and_eq_true] at hu
      obtain ⟨hu1, hu2⟩ := hu
      have h1 := extractPaths_subexpr e hu1 q
      have h2 := extractPathsList_subexpr rest hu2 q
      simp only [extractPathsList, subtermsList, List.filterMap_append, List.mem_append,
        mem_unionPaths]
      rw [h1, h2]
      rfl

end

/-- C10 amended witness: the dynamically addressed get with a nested
static get has unary get nodes, and data.key is extracted exactly as it
is a literal get path argument inside the dynamic path expression. -/
theorem extractPaths_subexpr_witness :
    unaryGets dynamicGet = true
    ∧ ("data.key" ∈ extractPaths dynamicGet
        ↔ "data.key" ∈ getSubexpressionPaths dynamicGet)
    ∧ "data.key" ∈ extractPaths dynamicGet :=
  ⟨by decide, extractPaths_subexpr dynamicGet (by decide) "data.key", by decide⟩

end Manifesto
